import Mathlib

set_option maxRecDepth 100000

set_option maxHeartbeats 1000000

/-!
Verification development for the pure-JavaScript TOTP implementation in
`src/service/totp.js`.  The code is shallowly embedded: byte sequences are
`List Nat` (each element a byte value), strings are `List Char`, JavaScript
32-bit unsigned arithmetic is `Nat` arithmetic reduced `% 2^32`, and the
possibly-negative counters reaching `intToBytes` through `verify` are `Int`
with floor division (`Int.fdiv`) and Euclidean remainder (`Int.emod`)
mirroring `Math.floor(v / 256)` and the `ToInt32`-based `v & 0xff`.
-/

namespace TotpJs

/-- Source `rotateLeft(value, amount)`: `((value << amount) | (value >>> (32 - amount))) >>> 0`.
For `value < 2^32` JavaScript's 32-bit truncating shift is `<<< amount` reduced mod `2^32`. -/
def rotateLeft (value amount : Nat) : Nat :=
  ((value <<< amount) % 4294967296) ||| (value >>> (32 - amount))

/-- Source `add32(a, b)`: `(a + b) >>> 0`, i.e. wrapping 32-bit addition. -/
def add32 (a b : Nat) : Nat := (a + b) % 4294967296

/-- Big-endian bytes of a 32-bit word, as written by `DataView.setUint32(_, w, false)`. -/
def wordBytes (w : Nat) : List Nat :=
  [w / 16777216 % 256, w / 65536 % 256, w / 256 % 256, w % 256]

/-- Reads consecutive 32-bit big-endian words from a byte list, mirroring the
`view.getUint32(chunk + i * 4, false)` loop that breaks a chunk into sixteen words. -/
def bytesToWords : List Nat → List Nat
  | b0 :: b1 :: b2 :: b3 :: rest =>
      (((b0 * 256 + b1) * 256 + b2) * 256 + b3) :: bytesToWords rest
  | _ => []

/-- Message-schedule expansion.  The second argument is the sliding window of the
last sixteen words, oldest first, so the head is `w[i-16]`, position 2 is `w[i-14]`,
position 8 is `w[i-8]` and position 13 is `w[i-3]`; each step produces
`rotl(w[i-3] ^ w[i-8] ^ w[i-14] ^ w[i-16], 1)` as in the source's extension loop. -/
def expandW : Nat → List Nat → List Nat
  | 0, _ => []
  | n + 1, s0 :: s1 :: s2 :: s3 :: s4 :: s5 :: s6 :: s7 :: s8 :: s9 :: s10 :: s11 :: s12 :: s13 :: s14 :: s15 :: _ =>
      let nw := rotateLeft (s13 ^^^ s8 ^^^ s2 ^^^ s0) 1
      nw :: expandW n (s1 :: s2 :: s3 :: s4 :: s5 :: s6 :: s7 :: s8 :: s9 :: s10 :: s11 :: s12 :: s13 :: s14 :: s15 :: [nw])
  | _ + 1, _ => []

/-- Round function `f` of the four 20-round bands.  JavaScript's `~b & d` is the
32-bit complement of `b`, i.e. `(b ^^^ 0xFFFFFFFF) &&& d` for `b < 2^32`. -/
def fval (i b c d : Nat) : Nat :=
  if i < 20 then (b &&& c) ||| ((b ^^^ 4294967295) &&& d)
  else if i < 40 then b ^^^ c ^^^ d
  else if i < 60 then (b &&& c) ||| (b &&& d) ||| (c &&& d)
  else b ^^^ c ^^^ d

/-- Round constant `k` of the four 20-round bands. -/
def kval (i : Nat) : Nat :=
  if i < 20 then 1518500249
  else if i < 40 then 1859775393
  else if i < 60 then 2400959708
  else 3395469782

/-- The 80-round compression loop over the expanded schedule, carried in the
five working registers `(a, b, c, d, e)`. -/
def rounds : Nat → List Nat → Nat × Nat × Nat × Nat × Nat → Nat × Nat × Nat × Nat × Nat
  | _, [], st => st
  | i, wi :: rest, (a, b, c, d, e) =>
      let temp := add32 (add32 (rotateLeft a 5) (fval i b c d)) (add32 (add32 e wi) (kval i))
      rounds (i + 1) rest (temp, a, rotateLeft b 30, c, d)

/-- One 64-byte chunk: expand to eighty words, run the rounds, add the working
registers back into the running hash state. -/
def processChunk (h : Nat × Nat × Nat × Nat × Nat) (chunk : List Nat) : Nat × Nat × Nat × Nat × Nat :=
  let w16 := bytesToWords chunk
  let w := w16 ++ expandW 64 w16
  match h, rounds 0 w h with
  | (h0, h1, h2, h3, h4), (a, b, c, d, e) =>
      (add32 h0 a, add32 h1 b, add32 h2 c, add32 h3 d, add32 h4 e)

/-- The `for (chunk = 0; chunk < paddedData.length; chunk += 64)` loop, with the
iteration count (`length / 64`) passed as structural fuel. -/
def processChunks : Nat → Nat × Nat × Nat × Nat × Nat → List Nat → Nat × Nat × Nat × Nat × Nat
  | 0, h, _ => h
  | n + 1, h, bytes => processChunks n (processChunk h (bytes.take 64)) (bytes.drop 64)

/-- `Math.ceil((len + 9) / 64) * 64`, the allocated padded length. -/
def padTotalLen (len : Nat) : Nat := (len + 9 + 63) / 64 * 64

/-- The pre-processing of `sha1`: the data, one `0x80` byte, the zero fill of the
fresh `Uint8Array`, and the final four bytes written by
`view.setUint32(paddedData.length - 4, ml, false)` — only the low 32 bits of the
bit length `ml` are stored; bytes `length-8 .. length-5` stay zero. -/
def sha1Pad (data : List Nat) : List Nat :=
  data ++ 128 :: List.replicate (padTotalLen data.length - data.length - 5) 0
       ++ wordBytes (data.length * 8 % 4294967296)

/-- Initial hash state `{0x67452301, 0xEFCDAB89, 0x98BADCFE, 0x10325476, 0xC3D2E1F0}`. -/
def initH : Nat × Nat × Nat × Nat × Nat :=
  (1732584193, 4023233417, 2562383102, 271733878, 3285377520)

/-- The final conversion to bytes: the five state words stored big-endian. -/
def digestBytes : Nat × Nat × Nat × Nat × Nat → List Nat
  | (h0, h1, h2, h3, h4) =>
      wordBytes h0 ++ wordBytes h1 ++ wordBytes h2 ++ wordBytes h3 ++ wordBytes h4

/-- Source `sha1(data)`: pad, process all 64-byte chunks, serialize the state. -/
def sha1 (data : List Nat) : List Nat :=
  let padded := sha1Pad data
  digestBytes (processChunks (padded.length / 64) initH padded)

/-- Source `hmac(key, data)`: hash over-long keys, zero-pad to the 64-byte block
size, XOR masks `0x5c` / `0x36`, and the two nested `sha1` passes. -/
def hmac (key data : List Nat) : List Nat :=
  let key1 := if 64 < key.length then sha1 key else key
  let key2 := if key1.length < 64 then key1 ++ List.replicate (64 - key1.length) 0 else key1
  let oKeyPad := key2.map (fun x => x ^^^ 92)
  let iKeyPad := key2.map (fun x => x ^^^ 54)
  sha1 (oKeyPad ++ sha1 (iKeyPad ++ data))

/-- The RFC 4648 Base32 alphabet string of the source. -/
def alphabet : List Char := "ABCDEFGHIJKLMNOPQRSTUVWXYZ234567".toList

/-- `alphabet.indexOf(char)` (`none` standing for the sentinel `-1`). -/
def indexOfAux : List Char → Char → Nat → Option Nat
  | [], _, _ => none
  | a :: rest, c, i => if a = c then some i else indexOfAux rest c (i + 1)

/-- `encoded.replace(/=+$/, '')`: remove the trailing run of `=` characters. -/
def stripTrailingEq (s : List Char) : List Char :=
  (s.reverse.dropWhile (fun c => c = '=')).reverse

/-- The accumulation loop of `base32Decode` over the cleaned input, carrying the
bit buffer `value` (kept below `2^32` as JavaScript's `(value << 5) | index` is
`ToInt32`-truncated) and the bit count `bits`; characters outside the alphabet
are skipped (`if (index === -1) continue`). -/
def base32Go : List Char → Nat → Nat → List Nat
  | [], _, _ => []
  | c :: rest, value, bits =>
      match indexOfAux alphabet c 0 with
      | none => base32Go rest value bits
      | some index =>
          let value1 := ((value <<< 5) ||| index) % 4294967296
          let bits1 := bits + 5
          if 8 ≤ bits1 then
            ((value1 >>> (bits1 - 8)) &&& 255) :: base32Go rest value1 (bits1 - 8)
          else
            base32Go rest value1 bits1

/-- Source `base32Decode(encoded)`: strip trailing `=`, uppercase, accumulate. -/
def base32Decode (encoded : List Char) : List Nat :=
  base32Go ((stripTrailingEq encoded).map Char.toUpper) 0 0

/-- The byte-extraction loop of `intToBytes`: `result[i] = value & 0xff` (which is
`value.emod 256` for any integer, via `ToInt32`) and `value = Math.floor(value / 256)`
(floor division), for `i` from 7 down to 0. -/
def intToBytesAux : Nat → Int → List Nat
  | 0, _ => []
  | n + 1, v => intToBytesAux n (Int.fdiv v 256) ++ [(v.emod 256).toNat]

/-- Source `intToBytes(value)`: the 8-byte big-endian serialization loop. -/
def intToBytes (value : Int) : List Nat := intToBytesAux 8 value

/-- Decimal digit character, as produced by `Number.prototype.toString`. -/
def digitChar (d : Nat) : Char := Char.ofNat (48 + d)

/-- Decimal digits of `n`, most significant first, with structural fuel
(any fuel above `n` is enough, since `n / 10 < n`). -/
def decAux : Nat → Nat → List Char
  | 0, _ => []
  | fuel + 1, n => if n < 10 then [digitChar n] else decAux fuel (n / 10) ++ [digitChar (n % 10)]

/-- `n.toString()` for a non-negative integer. -/
def natDecimal (n : Nat) : List Char := decAux (n + 1) n

/-- `s.padStart(len, c)`: prefix with `c` up to length `len` (no-op when already long enough). -/
def padStart (s : List Char) (len : Nat) (c : Char) : List Char :=
  List.replicate (len - s.length) c ++ s

/-- Source `generateHOTP(counter)` of an instance with the given `secret` and
`digits`: Base32-decode the secret, serialize the counter, HMAC, dynamic
truncation (`offset = hmac[hmac.length - 1] & 0x0f`, then the masked big-endian
read written with shifts and ors), modulo `10^digits`, zero-padded decimal. -/
def generateHOTP (secret : List Char) (digits : Nat) (counter : Int) : List Char :=
  let key := base32Decode secret
  let counterBuffer := intToBytes counter
  let hm := hmac key counterBuffer
  let offset := hm.getD (hm.length - 1) 0 &&& 15
  let code := ((hm.getD offset 0 &&& 127) <<< 24) |||
              ((hm.getD (offset + 1) 0 &&& 255) <<< 16) |||
              ((hm.getD (offset + 2) 0 &&& 255) <<< 8) |||
              (hm.getD (offset + 3) 0 &&& 255)
  padStart (natDecimal (code % 10 ^ digits)) digits '0'

/-- `Math.floor(timestamp / 1000 / period)`: for a positive integer `period` the
two exact real divisions followed by `Math.floor` give floor division by `1000 * period`. -/
def counterFromTimestamp (timestamp : Int) (period : Nat) : Int :=
  Int.fdiv timestamp (1000 * period)

/-- The offsets `i = -window, ..., window` visited by the `for` loop of `verify`,
in loop order (empty when `window < 0`). -/
def offsetsList (window : Int) : List Int :=
  (List.range (2 * window + 1).toNat).map (fun (k : Nat) => -window + (k : Int))

/-- Source `verify(token, window, timestamp)`: scan the offsets in order and
return whether some `generateHOTP(currentCounter + i)` equals the token. -/
def verify (secret : List Char) (digits period : Nat) (token : List Char)
    (window : Int) (timestamp : Int) : Bool :=
  let currentCounter := counterFromTimestamp timestamp period
  (offsetsList window).any (fun i => generateHOTP secret digits (currentCounter + i) == token)

/-- Source `generate(timestamp)`: derive the counter from the time and delegate. -/
def generate (secret : List Char) (digits period : Nat) (timestamp : Int) : List Char :=
  generateHOTP secret digits (counterFromTimestamp timestamp period)

/-- Source `getRemainingSeconds(timestamp)` for a non-negative timestamp:
`period - Math.floor(timestamp / 1000) % period`. -/
def getRemainingSeconds (timestamp : Nat) (period : Nat) : Nat :=
  period - timestamp / 1000 % period

/-- The `options` object of the constructor; a missing field is `none`. -/
structure TOTPOptions where
  digits : Option Int := none
  period : Option Int := none
  algorithm : Option (List Char) := none

/-- JavaScript `x || dflt` for a numeric option: the default is taken both when
the field is absent and when it is the falsy number `0`. -/
def jsOrInt (v : Option Int) (dflt : Int) : Int :=
  match v with
  | none => dflt
  | some x => if x = 0 then dflt else x

/-- JavaScript `x || dflt` for a string option (the empty string is falsy). -/
def jsOrStr (v : Option (List Char)) (dflt : List Char) : List Char :=
  match v with
  | none => dflt
  | some s => if s = [] then dflt else s

/-- The immutable instance state set by the constructor. -/
structure TOTP where
  secret : List Char
  digits : Int
  period : Int
  algorithm : List Char

/-- The source constructor: `this.secret = secret; this.digits = options.digits || 6;
this.period = options.period || 30; this.algorithm = options.algorithm || 'SHA-1'`.
It performs no validation and cannot fail. -/
def TOTP.make (secret : List Char) (options : TOTPOptions) : TOTP :=
  ⟨secret, jsOrInt options.digits 6, jsOrInt options.period 30,
   jsOrStr options.algorithm "SHA-1".toList⟩

/-! Spec-side definitions, transcribed from the specification's wording rather
than from the source, for the refinement claims. -/

/-- The claim's counter serialization: "serialize counter as exactly 8 bytes
big-endian" for a non-negative counter. -/
def specCounterBytes (n : Nat) : List Nat :=
  [n / 72057594037927936 % 256, n / 281474976710656 % 256, n / 1099511627776 % 256,
   n / 4294967296 % 256, n / 16777216 % 256, n / 65536 % 256, n / 256 % 256, n % 256]

/-- The claim's HOTP pipeline: Base32-decode the secret, 8-byte big-endian
counter, `hmac = HMAC-SHA1(key, counterBytes)`, `offset = hmac[19] & 0x0F`,
the 4 bytes at `offset` read as a big-endian 32-bit value with the top bit
masked off (`& 0x7FFFFFFF`), reduced `mod 10^digits` and printed as a decimal
string left-zero-padded to length `digits`. -/
def hotpSpec (secret : List Char) (digits : Nat) (n : Nat) : List Char :=
  let key := base32Decode secret
  let counterBytes := specCounterBytes n
  let hm := hmac key counterBytes
  let offset := hm.getD 19 0 &&& 15
  let truncated :=
    (hm.getD offset 0 * 16777216 + hm.getD (offset + 1) 0 * 65536 +
     hm.getD (offset + 2) 0 * 256 + hm.getD (offset + 3) 0) &&& 2147483647
  padStart (natDecimal (truncated % 10 ^ digits)) digits '0'

/-- A true 64-bit big-endian length field, per the claim's "append the original
message bit-length as a big-endian 64-bit integer". -/
def be64Bytes (n : Nat) : List Nat :=
  [n / 72057594037927936 % 256, n / 281474976710656 % 256, n / 1099511627776 % 256,
   n / 4294967296 % 256, n / 16777216 % 256, n / 65536 % 256, n / 256 % 256, n % 256]

/-- Lower-case hexadecimal digit character. -/
def hexDigitChar (d : Nat) : Char :=
  if d < 10 then Char.ofNat (48 + d) else Char.ofNat (87 + d)

/-- Lower-case hexadecimal rendering of a byte sequence, two digits per byte. -/
def hexOfBytes : List Nat → List Char
  | [] => []
  | b :: rest => hexDigitChar (b / 16) :: hexDigitChar (b % 16) :: hexOfBytes rest

/-- Membership predicate of the Base32 alphabet, as a Bool. -/
def isB32Char (c : Char) : Bool := (indexOfAux alphabet c 0).isSome

/-- A small sample secret used for concrete instances. -/
def sampleSecret : List Char := "GEZDGNBV".toList

/-- The ASCII secret of RFC 4226 Appendix D, passed directly as the secret string. -/
def rfcAsciiSecret : List Char := "12345678901234567890".toList

/-- The Base32 encoding of the RFC 4226 Appendix D ASCII secret
`"12345678901234567890"`. -/
def rfcBase32Secret : List Char := "GEZDGNBVGY3TQOJQGEZDGNBVGY3TQOJQ".toList

/-! Helper lemmas. -/

/-- Or-ing a `k`-bit-shifted value with a value below `2^k` is addition. -/
lemma shiftLeft_lor_add (a b k : Nat) (hb : b < 2 ^ k) : (a <<< k) ||| b = a * 2 ^ k + b := by
  apply Nat.eq_of_testBit_eq
  intro i
  rw [Nat.testBit_lor, Nat.testBit_shiftLeft]
  rcases Nat.lt_or_ge i k with h | h
  · have h1 : (decide (i ≥ k)) = false := by simp; omega
    rw [h1, Bool.false_and, Bool.false_or]
    have hmod : (a * 2 ^ k + b) % 2 ^ k = b := by
      rw [Nat.mul_comm a, Nat.mul_add_mod, Nat.mod_eq_of_lt hb]
    have h2 := Nat.testBit_mod_two_pow (a * 2 ^ k + b) k i
    rw [hmod] at h2
    simpa [h] using h2
  · have h1 : (decide (i ≥ k)) = true := by simp [h]
    have hb2 : b.testBit i = false :=
      Nat.testBit_eq_false_of_lt (Nat.lt_of_lt_of_le hb (Nat.pow_le_pow_right (by norm_num) h))
    rw [h1, Bool.true_and, hb2, Bool.or_false]
    have hdiv : (a * 2 ^ k + b) >>> k = a := by
      rw [Nat.shiftRight_eq_div_pow, Nat.mul_comm a, Nat.mul_add_div (by positivity),
        Nat.div_eq_of_lt hb, Nat.add_zero]
    have hik : k + (i - k) = i := by omega
    calc a.testBit (i - k) = ((a * 2 ^ k + b) >>> k).testBit (i - k) := by rw [hdiv]
      _ = (a * 2 ^ k + b).testBit (k + (i - k)) := by rw [Nat.testBit_shiftRight]
      _ = (a * 2 ^ k + b).testBit i := by rw [hik]

/-- Every entry of `wordBytes` is a byte. -/
lemma wordBytes_lt (w : Nat) : ∀ x ∈ wordBytes w, x < 256 := by
  intro x hx
  simp only [wordBytes, List.mem_cons, List.not_mem_nil, or_false] at hx
  rcases hx with hx | hx | hx | hx <;> omega

/-- `digestBytes` always yields 20 bytes. -/
lemma digestBytes_length (st : Nat × Nat × Nat × Nat × Nat) : (digestBytes st).length = 20 := by
  obtain ⟨h0, h1, h2, h3, h4⟩ := st
  simp [digestBytes, wordBytes]

/-- Every entry of `digestBytes` is a byte. -/
lemma digestBytes_lt (st : Nat × Nat × Nat × Nat × Nat) : ∀ x ∈ digestBytes st, x < 256 := by
  obtain ⟨h0, h1, h2, h3, h4⟩ := st
  intro x hx
  simp only [digestBytes, List.mem_append] at hx
  rcases hx with (((hx | hx) | hx) | hx) | hx <;> exact wordBytes_lt _ x hx

/-- `sha1` unfolded once (the `let` bindings zeta-reduce). -/
lemma sha1_def (data : List Nat) :
    sha1 data = digestBytes (processChunks ((sha1Pad data).length / 64) initH (sha1Pad data)) := rfl

/-- The SHA-1 digest always has exactly 20 bytes. -/
lemma sha1_length (data : List Nat) : (sha1 data).length = 20 := by
  rw [sha1_def]; exact digestBytes_length _

/-- Every SHA-1 output entry is a byte. -/
lemma sha1_lt (data : List Nat) : ∀ x ∈ sha1 data, x < 256 := by
  rw [sha1_def]; exact digestBytes_lt _

/-- The HMAC tag always has exactly 20 bytes. -/
lemma hmac_length (key data : List Nat) : (hmac key data).length = 20 :=
  sha1_length _

/-- Every HMAC output entry is a byte. -/
lemma hmac_lt (key data : List Nat) : ∀ x ∈ hmac key data, x < 256 :=
  sha1_lt _

/-- `getD` with default `0` on a list of bytes is a byte. -/
lemma getD_lt : ∀ (l : List Nat) (i : Nat), (∀ x ∈ l, x < 256) → l.getD i 0 < 256
  | [], i, _ => by simp [List.getD]
  | a :: l, 0, h => by simpa using h a (by simp)
  | a :: l, i + 1, h => by
      simpa using getD_lt l i (fun x hx => h x (by simp [hx]))

/-- Masking a byte with `0xff` is the identity. -/
lemma and_mask255 (x : Nat) (h : x < 256) : x &&& 255 = x := by
  have h2 : (255 : Nat) = 2 ^ 8 - 1 := by norm_num
  rw [h2, Nat.and_pow_two_sub_one_eq_mod, Nat.mod_eq_of_lt (by norm_num at h ⊢; omega)]

/-- Masking with `0x7f` is reduction mod 128. -/
lemma and_mask127 (x : Nat) : x &&& 127 = x % 128 := by
  have h2 : (127 : Nat) = 2 ^ 7 - 1 := by norm_num
  rw [h2, Nat.and_pow_two_sub_one_eq_mod]

/-- Masking with `0x7FFFFFFF` is reduction mod `2^31`. -/
lemma and_mask31 (x : Nat) : x &&& 2147483647 = x % 2147483648 := by
  have h2 : (2147483647 : Nat) = 2 ^ 31 - 1 := by norm_num
  rw [h2, Nat.and_pow_two_sub_one_eq_mod]

/-- The source's shift-and-or dynamic truncation on four bytes equals the
claim's big-endian 32-bit read masked with `0x7FFFFFFF`. -/
lemma truncBridge (a b c d : Nat) (_ha : a < 256) (hb : b < 256) (hc : c < 256) (hd : d < 256) :
    ((a &&& 127) <<< 24) ||| ((b &&& 255) <<< 16) ||| ((c &&& 255) <<< 8) ||| (d &&& 255) =
      (a * 16777216 + b * 65536 + c * 256 + d) &&& 2147483647 := by
  rw [and_mask255 b hb, and_mask255 c hc, and_mask255 d hd, and_mask127, and_mask31]
  rw [Nat.lor_assoc, Nat.lor_assoc]
  have h8 := shiftLeft_lor_add c d 8 (by norm_num; omega)
  rw [h8]
  have h16 := shiftLeft_lor_add b (c * 2 ^ 8 + d) 16 (by norm_num; omega)
  rw [h16]
  have h24 := shiftLeft_lor_add (a % 128) (b * 2 ^ 16 + (c * 2 ^ 8 + d)) 24 (by norm_num; omega)
  rw [h24]
  simp only [(by norm_num : (2 : Nat) ^ 24 = 16777216), (by norm_num : (2 : Nat) ^ 16 = 65536),
    (by norm_num : (2 : Nat) ^ 8 = 256)]
  omega

/-- On a natural-number counter, the source serialization loop produces the
claim's 8-byte big-endian serialization. -/
lemma intToBytes_natCast (n : Nat) : intToBytes (n : Int) = specCounterBytes n := by
  have hf : ∀ m : Nat, Int.fdiv (m : Int) 256 = ((m / 256 : Nat) : Int) := by
    intro m
    rw [Int.fdiv_eq_tdiv (by positivity) (by norm_num)]
    norm_cast
  have he : ∀ m : Nat, ((m : Int).emod 256).toNat = m % 256 := by
    intro m
    have h1 : ((m : Int).emod 256) = ((m % 256 : Nat) : Int) := by
      push_cast
      rfl
    rw [h1, Int.toNat_natCast]
  simp only [intToBytes, intToBytesAux, hf, he, specCounterBytes, List.nil_append,
    List.append_assoc, List.cons_append, List.singleton_append]
  norm_num
  omega

/-- Fuel-indexed bound on the number of decimal digits: a value below `10^d`
prints in at most `d` digits. -/
lemma decAux_length_le : ∀ (f n d : Nat), n < f → n < 10 ^ d → 1 ≤ d → (decAux f n).length ≤ d := by
  intro f
  induction f with
  | zero => intro n d h; omega
  | succ f ih =>
      intro n d hf hp hd
      by_cases h10 : n < 10
      · simp [decAux, h10]; omega
      · have hd2 : 2 ≤ d := by
          by_contra hc
          have : d = 1 := by omega
          subst this
          simp at hp
          omega
        have hpow : 10 ^ d = 10 ^ (d - 1) * 10 := by
          rw [← Nat.pow_succ]
          congr 1
          omega
        have hdiv : n / 10 < 10 ^ (d - 1) := by
          rw [hpow] at hp
          have := Nat.div_lt_of_lt_mul (Nat.mul_comm (10 ^ (d - 1)) 10 ▸ hp)
          omega
        have hrec := ih (n / 10) (d - 1) (by omega) hdiv (by omega)
        simp [decAux, h10]
        omega

/-- A value below `10^d` (with `d ≥ 1`) prints in at most `d` decimal digits. -/
lemma natDecimal_length_le (n d : Nat) (h : n < 10 ^ d) (hd : 1 ≤ d) :
    (natDecimal n).length ≤ d :=
  decAux_length_le (n + 1) n d (Nat.lt_succ_self n) h hd

/-- `padStart` yields exactly the requested length when the input is not longer. -/
lemma padStart_length (s : List Char) (len : Nat) (c : Char) (h : s.length ≤ len) :
    (padStart s len c).length = len := by
  simp [padStart]
  omega

/-- The refinement underlying C1: the source `generateHOTP` on a non-negative
counter equals the specification's step-by-step description. -/
lemma generateHOTP_eq_hotpSpec (secret : List Char) (digits : Nat) (n : Nat) :
    generateHOTP secret digits (n : Int) = hotpSpec secret digits n := by
  have hlen := hmac_length (base32Decode secret) (specCounterBytes n)
  have hlt := hmac_lt (base32Decode secret) (specCounterBytes n)
  simp only [generateHOTP, hotpSpec, intToBytes_natCast, hlen,
    (by norm_num : (20 : Nat) - 1 = 19)]
  congr 3
  exact truncBridge _ _ _ _ (getD_lt _ _ hlt) (getD_lt _ _ hlt) (getD_lt _ _ hlt)
    (getD_lt _ _ hlt)

/-- The loop offsets of `verify` are exactly the integers of `[-window, window]`. -/
lemma mem_offsetsList (window i : Int) : i ∈ offsetsList window ↔ -window ≤ i ∧ i ≤ window := by
  simp only [offsetsList, List.mem_map, List.mem_range]
  constructor
  · rintro ⟨k, hk, rfl⟩
    omega
  · rintro ⟨h1, h2⟩
    exact ⟨(i + window).toNat, by omega, by omega⟩

/-- `verify` succeeds exactly when some offset in the window matches the token. -/
lemma verify_iff (secret : List Char) (digits period : Nat) (token : List Char)
    (window timestamp : Int) :
    verify secret digits period token window timestamp = true ↔
      ∃ i : Int, -window ≤ i ∧ i ≤ window ∧
        generateHOTP secret digits (counterFromTimestamp timestamp period + i) = token := by
  simp only [verify, List.any_eq_true, beq_iff_eq]
  constructor
  · rintro ⟨i, hi, h3⟩
    rw [mem_offsetsList] at hi
    exact ⟨i, hi.1, hi.2, h3⟩
  · rintro ⟨i, h1, h2, h3⟩
    exact ⟨i, (mem_offsetsList window i).2 ⟨h1, h2⟩, h3⟩

/-- Skipping characters outside the alphabet is the same as filtering them away first. -/
lemma base32Go_filter : ∀ (l : List Char) (value bits : Nat),
    base32Go l value bits = base32Go (l.filter isB32Char) value bits := by
  intro l
  induction l with
  | nil => intro value bits; rfl
  | cons c rest ih =>
      intro value bits
      rcases hq : indexOfAux alphabet c 0 with _ | idx
      · have hc : isB32Char c = false := by simp [isB32Char, hq]
        rw [List.filter_cons, hc]
        simp only [base32Go, hq, Bool.false_eq_true, if_false]
        exact ih value bits
      · have hc : isB32Char c = true := by simp [isB32Char, hq]
        rw [List.filter_cons, hc]
        simp only [base32Go, hq, if_true]
        by_cases h8 : 8 ≤ bits + 5
        · simp only [h8, if_true]
          rw [ih]
        · simp only [h8, if_false]
          exact ih _ _

/-- The padded length covers the data, the `0x80` marker and the length field. -/
lemma padTotalLen_ge (len : Nat) : len + 9 ≤ padTotalLen len := by
  simp only [padTotalLen]
  omega

/-- The padded length is a multiple of 64. -/
lemma padTotalLen_mod (len : Nat) : padTotalLen len % 64 = 0 := by
  simp only [padTotalLen]
  omega

/-- The length of the padded message. -/
lemma sha1Pad_length (data : List Nat) : (sha1Pad data).length = padTotalLen data.length := by
  have h9 := padTotalLen_ge data.length
  simp [sha1Pad, wordBytes]
  omega

/-! The claims. -/

/-- C1: for every secret string, every positive digit count and every
non-negative counter, `generateHOTP` returns exactly the string described by the
specification pipeline (`hotpSpec`): Base32-decode the secret, serialize the
counter as 8 big-endian bytes, HMAC-SHA1, dynamic truncation at
`offset = hmac[19] & 0x0F` with the 4-byte big-endian read masked by
`0x7FFFFFFF`, reduce mod `10^digits`, zero-pad to exactly `digits` characters. -/
theorem C1_generateHOTP_refines_spec (secret : List Char) (digits : Nat) (n : Nat)
    (hd : 0 < digits) :
    generateHOTP secret digits (n : Int) = hotpSpec secret digits n ∧
    (generateHOTP secret digits (n : Int)).length = digits := by
  refine ⟨generateHOTP_eq_hotpSpec secret digits n, ?_⟩
  simp only [generateHOTP]
  refine padStart_length _ _ _ ?_
  refine natDecimal_length_le _ _ ?_ hd
  exact Nat.mod_lt _ (by positivity)

/-- Witness for C1 at the sample secret, 6 digits and counter 0. -/
theorem C1_witness :
    0 < 6 ∧
    (generateHOTP sampleSecret 6 ((0 : Nat) : Int) = hotpSpec sampleSecret 6 0 ∧
      (generateHOTP sampleSecret 6 ((0 : Nat) : Int)).length = 6) :=
  ⟨by decide, C1_generateHOTP_refines_spec sampleSecret 6 0 (by decide)⟩

/-- C2 counterexample: with the secret string `"12345678901234567890"` the code
Base32-decodes the secret (skipping the characters `0`, `1`, `8`, `9`, which lie
outside the alphabet), so the key is not the RFC 4226 ASCII key and counter 0
yields `"882301"`, not the RFC vector `"755224"`. -/
theorem C2_counterexample :
    generateHOTP rfcAsciiSecret 6 0 = "882301".toList ∧
    generateHOTP rfcAsciiSecret 6 0 ≠ "755224".toList := by
  constructor
  · decide
  · decide

/-- C2 amended: the RFC 4226 Appendix D vectors hold for counters 0–9 when the
instance is given the Base32 encoding of the RFC ASCII secret (which decodes to
exactly the ASCII bytes of `"12345678901234567890"`). -/
theorem C2_amended_rfc_vectors :
    base32Decode rfcBase32Secret =
      [49, 50, 51, 52, 53, 54, 55, 56, 57, 48, 49, 50, 51, 52, 53, 54, 55, 56, 57, 48] ∧
    generateHOTP rfcBase32Secret 6 0 = "755224".toList ∧
    generateHOTP rfcBase32Secret 6 1 = "287082".toList ∧
    generateHOTP rfcBase32Secret 6 2 = "359152".toList ∧
    generateHOTP rfcBase32Secret 6 3 = "969429".toList ∧
    generateHOTP rfcBase32Secret 6 4 = "338314".toList ∧
    generateHOTP rfcBase32Secret 6 5 = "254676".toList ∧
    generateHOTP rfcBase32Secret 6 6 = "287922".toList ∧
    generateHOTP rfcBase32Secret 6 7 = "162583".toList ∧
    generateHOTP rfcBase32Secret 6 8 = "399871".toList ∧
    generateHOTP rfcBase32Secret 6 9 = "520489".toList := by
  refine ⟨by decide, by decide, by decide, by decide, by decide, by decide, by decide,
    by decide, by decide, by decide, by decide⟩

/-- C3: for every token, window and timestamp (and positive period),
`verify` returns `true` exactly when some offset `i ∈ [-window, window]`
satisfies `generateHOTP(counter + i) = token` with
`counter = floor(timestamp / 1000 / period)`; absence of a match gives `false`
(the function is total, so no error is ever raised). -/
theorem C3_verify_iff_window_match (secret : List Char) (digits period : Nat)
    (token : List Char) (window timestamp : Int) (_hp : 0 < period) :
    verify secret digits period token window timestamp = true ↔
      ∃ i : Int, -window ≤ i ∧ i ≤ window ∧
        generateHOTP secret digits (counterFromTimestamp timestamp period + i) = token :=
  verify_iff secret digits period token window timestamp

/-- Witness for C3 at a concrete instance. -/
theorem C3_witness :
    verify sampleSecret 6 30 ("125318".toList) 1 0 = true ↔
      ∃ i : Int, -1 ≤ i ∧ i ≤ 1 ∧
        generateHOTP sampleSecret 6 (counterFromTimestamp 0 30 + i) = "125318".toList :=
  C3_verify_iff_window_match sampleSecret 6 30 ("125318".toList) 1 0 (by decide)

/-- C4: the constructor performs no validation at all: a zero `digits` or
`period` is silently replaced by the default (6 / 30) by the `||` fallback, and
negative values are stored unchanged, producing a usable instance — it never
fails with a configuration error, contradicting the claim. -/
theorem C4_constructor_accepts_invalid_config :
    (TOTP.make sampleSecret ⟨some 0, some 0, none⟩).digits = 6 ∧
    (TOTP.make sampleSecret ⟨some 0, some 0, none⟩).period = 30 ∧
    (TOTP.make sampleSecret ⟨some (-1), some (-7), none⟩).digits = -1 ∧
    (TOTP.make sampleSecret ⟨some (-1), some (-7), none⟩).period = -7 :=
  ⟨rfl, rfl, rfl, rfl⟩

/-- C5 counterexample: on `2^29` zero bytes the bit length is `2^32`, and the
single `setUint32` write stores only its low 32 bits, so the final 8 bytes of
the padded message are all zero rather than the big-endian 64-bit bit length. -/
theorem C5_counterexample :
    List.drop ((sha1Pad (List.replicate 536870912 0)).length - 8)
        (sha1Pad (List.replicate 536870912 0)) ≠
      be64Bytes (536870912 * 8) := by
  have hlen : (sha1Pad (List.replicate 536870912 0)).length = 536870976 := by
    rw [sha1Pad_length, List.length_replicate]
    norm_num [padTotalLen]
  have hpad : sha1Pad (List.replicate 536870912 0) =
      List.replicate 536870912 0 ++ ((128 :: List.replicate 59 0) ++ [0, 0, 0, 0]) := by
    rw [sha1Pad, List.length_replicate]
    rw [show padTotalLen 536870912 - 536870912 - 5 = 59 from by norm_num [padTotalLen]]
    rw [show (536870912 : Nat) * 8 % 4294967296 = 0 from by norm_num]
    rw [show wordBytes 0 = [0, 0, 0, 0] from rfl]
    rw [List.append_assoc]
  have hdrop : List.drop ((sha1Pad (List.replicate 536870912 0)).length - 8)
      (sha1Pad (List.replicate 536870912 0)) = [0, 0, 0, 0, 0, 0, 0, 0] := by
    rw [hlen, hpad]
    rw [show (536870976 : Nat) - 8 = 536870912 + 56 from by norm_num]
    rw [← List.drop_drop]
    rw [List.drop_left' (List.length_replicate 536870912 0)]
    rw [show (56 : Nat) = 55 + 1 from rfl, List.cons_append, List.drop_succ_cons]
    rw [show (59 : Nat) = 55 + 4 from rfl, List.replicate_add, List.append_assoc]
    rw [List.drop_left' (List.length_replicate 55 0)]
    rfl
  rw [hdrop]
  rw [show be64Bytes (536870912 * 8) = [0, 0, 0, 1, 0, 0, 0, 0] from by norm_num [be64Bytes]]
  decide

/-- C5 amended: for messages of fewer than `2^32` bits the padding appends
`0x80`, zero fill to 56 mod 64, and the 64-bit big-endian bit length; the
padded length is a multiple of 64. -/
theorem C5_sha1Pad_structure (data : List Nat) (h : data.length * 8 < 4294967296) :
    sha1Pad data = data ++ 128 ::
        List.replicate (padTotalLen data.length - data.length - 9) 0 ++
        be64Bytes (data.length * 8) ∧
    (sha1Pad data).length = padTotalLen data.length ∧
    (sha1Pad data).length % 64 = 0 ∧
    (data.length + 1 + (padTotalLen data.length - data.length - 9)) % 64 = 56 := by
  have h9 := padTotalLen_ge data.length
  have hmod := padTotalLen_mod data.length
  refine ⟨?_, sha1Pad_length data, ?_, ?_⟩
  · rw [sha1Pad, Nat.mod_eq_of_lt h]
    rw [List.append_assoc, List.append_assoc]
    refine congrArg (fun t => data ++ t) ?_
    simp only [List.cons_append]
    refine congrArg (fun t => 128 :: t) ?_
    rw [show padTotalLen data.length - data.length - 5 =
        (padTotalLen data.length - data.length - 9) + 4 from by omega]
    rw [List.replicate_add, List.append_assoc]
    refine congrArg (fun t => List.replicate (padTotalLen data.length - data.length - 9) 0 ++ t) ?_
    have hb : be64Bytes (data.length * 8) = 0 :: 0 :: 0 :: 0 :: wordBytes (data.length * 8) := by
      simp only [be64Bytes, wordBytes, List.cons.injEq, and_true]
      omega
    rw [hb]
    rfl
  · rw [sha1Pad_length]
    exact hmod
  · omega

/-- Witness for C5 amended at a 3-byte message. -/
theorem C5_witness :
    ([97, 98, 99] : List Nat).length * 8 < 4294967296 ∧
    (sha1Pad [97, 98, 99]).length % 64 = 0 :=
  ⟨by norm_num, (C5_sha1Pad_structure [97, 98, 99] (by norm_num)).2.2.1⟩

/-- C6 counterexample: the digest of `"abc"` does not match the 39-hex-character
string printed in the specification (which dropped the final `d`). -/
theorem C6_counterexample :
    hexOfBytes (sha1 [97, 98, 99]) ≠ "a9993e364706816aba3e25717850c26c9cd0d89".toList := by
  decide

/-- C6 amended: `sha1` matches the published SHA-1 vectors, with the full
40-character digest `a9993e364706816aba3e25717850c26c9cd0d89d` for `"abc"`. -/
theorem C6_sha1_test_vectors :
    sha1 [] = [218, 57, 163, 238, 94, 107, 75, 13, 50, 85, 191, 239,
      149, 96, 24, 144, 175, 216, 7, 9] ∧
    hexOfBytes (sha1 []) = "da39a3ee5e6b4b0d3255bfef95601890afd80709".toList ∧
    hexOfBytes (sha1 [97, 98, 99]) = "a9993e364706816aba3e25717850c26c9cd0d89d".toList := by
  refine ⟨by decide, by decide, by decide⟩

/-- C7: `base32Decode` is total (malformed input cannot raise), and its result
equals running the accumulation loop on just the subsequence of alphabet
characters of the stripped-and-uppercased input: invalid characters are
silently skipped. -/
theorem C7_base32Decode_skips_invalid (s : List Char) :
    base32Decode s =
      base32Go (((stripTrailingEq s).map Char.toUpper).filter isB32Char) 0 0 := by
  rw [base32Decode, base32Go_filter]

/-- C8 counterexample: with the sample secret, 1 digit and window 1, the token
of counter 1 (`"8"`) is also produced by counter 2, so checking at a timestamp
whose derived counter is `counter + window + 1 = 3` ACCEPTS the token, while
the claim demands rejection. -/
theorem C8_counterexample :
    generateHOTP sampleSecret 1 1 = "8".toList ∧
    counterFromTimestamp 90000 30 = 3 ∧
    verify sampleSecret 1 30 (generateHOTP sampleSecret 1 1) 1 90000 = true := by
  refine ⟨by decide, by decide, by decide⟩

/-- C8 amended: a token generated at `counter` is always accepted when the
derived counter is `counter ± window`; it is rejected at derived counter
`counter ± (window + 1)` provided no counter examined there collides with the
token (without that proviso the claim is false, see the counterexample). -/
theorem C8_verify_window_acceptance (secret : List Char) (digits period : Nat)
    (counter : Int) (window : Nat) (timestamp : Int) (_hp : 0 < period) :
    ((counterFromTimestamp timestamp period = counter + window ∨
      counterFromTimestamp timestamp period = counter - window) →
      verify secret digits period (generateHOTP secret digits counter)
        (window : Int) timestamp = true) ∧
    ((counterFromTimestamp timestamp period = counter + window + 1 ∨
      counterFromTimestamp timestamp period = counter - window - 1) →
      (∀ i : Int, -(window : Int) ≤ i → i ≤ (window : Int) →
        generateHOTP secret digits (counterFromTimestamp timestamp period + i) ≠
          generateHOTP secret digits counter) →
      verify secret digits period (generateHOTP secret digits counter)
        (window : Int) timestamp = false) := by
  constructor
  · intro hcase
    rw [verify_iff]
    rcases hcase with hc | hc
    · refine ⟨-(window : Int), by omega, by omega, ?_⟩
      rw [show counterFromTimestamp timestamp period + -(window : Int) = counter from by omega]
    · refine ⟨(window : Int), by omega, by omega, ?_⟩
      rw [show counterFromTimestamp timestamp period + (window : Int) = counter from by omega]
  · intro hcase hnone
    cases hv : verify secret digits period (generateHOTP secret digits counter)
        (window : Int) timestamp with
    | false => rfl
    | true =>
        obtain ⟨i, h1, h2, h3⟩ := (verify_iff secret digits period _ _ _).1 hv
        exact absurd h3 (hnone i h1 h2)

/-- Witness for C8 amended: acceptance at derived counter 6 = 5 + 1 and
rejection at derived counter 7 = 5 + 1 + 1 for the sample secret, 6 digits,
period 30, window 1. -/
theorem C8_witness :
    verify sampleSecret 6 30 (generateHOTP sampleSecret 6 5) 1 180000 = true ∧
    verify sampleSecret 6 30 (generateHOTP sampleSecret 6 5) 1 210000 = false := by
  constructor
  · exact (C8_verify_window_acceptance sampleSecret 6 30 5 1 180000 (by decide)).1
      (Or.inl (by decide))
  · refine (C8_verify_window_acceptance sampleSecret 6 30 5 1 210000 (by decide)).2
      (Or.inl (by decide)) ?_
    intro i h1 h2
    interval_cases i <;> decide

/-- C9: for every non-negative timestamp (milliseconds) and positive period,
`getRemainingSeconds` returns `period - (floor(timestamp / 1000) mod period)`,
which lies in `[1, period]`. -/
theorem C9_getRemainingSeconds_range (timestamp period : Nat) (hp : 0 < period) :
    getRemainingSeconds timestamp period = period - timestamp / 1000 % period ∧
    1 ≤ getRemainingSeconds timestamp period ∧
    getRemainingSeconds timestamp period ≤ period := by
  have hlt := Nat.mod_lt (timestamp / 1000) hp
  refine ⟨rfl, ?_, ?_⟩
  · simp only [getRemainingSeconds]
    omega
  · simp only [getRemainingSeconds]
    omega

/-- Witness for C9 at timestamp 61000 ms and period 30. -/
theorem C9_witness :
    0 < 30 ∧
    (getRemainingSeconds 61000 30 = 30 - 61000 / 1000 % 30 ∧
      1 ≤ getRemainingSeconds 61000 30 ∧ getRemainingSeconds 61000 30 ≤ 30) :=
  ⟨by decide, C9_getRemainingSeconds_range 61000 30 (by decide)⟩

/-- C10: for every key and message the HMAC tag has exactly 20 bytes, the
truncation offset `hmac[hmac.length - 1] & 0x0F` is at most 15, and all four
reads `offset .. offset + 3` are in bounds: option-valued indexing is `isSome`
at each of them. -/
theorem C10_truncation_reads_in_bounds (key data : List Nat) :
    (hmac key data).length = 20 ∧
    ((hmac key data).getD ((hmac key data).length - 1) 0 &&& 15) ≤ 15 ∧
    ((hmac key data).get?
      ((hmac key data).getD ((hmac key data).length - 1) 0 &&& 15)).isSome = true ∧
    ((hmac key data).get?
      (((hmac key data).getD ((hmac key data).length - 1) 0 &&& 15) + 1)).isSome = true ∧
    ((hmac key data).get?
      (((hmac key data).getD ((hmac key data).length - 1) 0 &&& 15) + 2)).isSome = true ∧
    ((hmac key data).get?
      (((hmac key data).getD ((hmac key data).length - 1) 0 &&& 15) + 3)).isSome = true := by
  have hlen := hmac_length key data
  have hoff : ((hmac key data).getD ((hmac key data).length - 1) 0 &&& 15) ≤ 15 :=
    Nat.and_le_right
  refine ⟨hlen, hoff, ?_, ?_, ?_, ?_⟩ <;>
    · rw [List.get?_eq_get (by omega)]
      rfl

end TotpJs
